import Mathlib

/-!
Shallow embedding of the UVM assembler (src/assembler.py).

The repository holds two independently written variants of the same
assembler (assembler.py and assemly.py); the design notes of the spec
designate the fully specified little-endian, hard-validation encoding as
canonical, which is the one assembler.py implements, so assembler.py is
the program embedded here.  Strings are modelled as lists of characters;
the ASCII fragment of the Python string builtins that the program relies
on (strip, split, lower, startswith, splitlines, int) is embedded
explicitly below.  Machine integers are Nat or Int; struct.pack is
modelled byte by byte.
-/

namespace UVMAsm

/-- The whitespace characters recognised by Python str.strip with no
argument (the ASCII ones; the inputs in scope are ASCII). -/
def pyIsSpace (c : Char) : Bool :=
  c = ' ' || c = '\t' || c = '\n' || c = '\x0d' || c = '\x0b' || c = '\x0c'

/-- Python str.strip(): drop leading and trailing whitespace. -/
def pyStrip (l : List Char) : List Char :=
  ((l.dropWhile pyIsSpace).reverse.dropWhile pyIsSpace).reverse

/-- Python line.startswith(given one character): head test for the comment marker. -/
def startsWithHash : List Char → Bool
  | '#' :: _ => true
  | _ => false

/-- Python line.split(given a one-character separator): split on every comma,
keeping empty fields; the result is never the empty list. -/
def splitComma : List Char → List (List Char)
  | [] => [[]]
  | c :: rest =>
    if c = ',' then [] :: splitComma rest
    else
      match splitComma rest with
      | [] => [[c]]
      | f :: fs => (c :: f) :: fs

/-- Python str.lower() restricted to ASCII letters (the mnemonic
alphabet of this program). -/
def lowerChar (c : Char) : Char :=
  if 'A' ≤ c ∧ c ≤ 'Z' then Char.ofNat (c.toNat + 32) else c

/-- Lower-case a whole field. -/
def lowerStr (l : List Char) : List Char :=
  l.map lowerChar

/-- Decimal digit value of a character, none for a non-digit. -/
def digitVal (c : Char) : Option Nat :=
  if '0' ≤ c ∧ c ≤ '9' then some (c.toNat - '0'.toNat) else none

/-- Digit tail of the CPython base-10 integer grammar:
digit (["_"] digit)*, so single underscores may separate digits but may
not lead, trail or repeat. -/
def digitsCore (acc : Nat) : List Char → Option Nat
  | [] => some acc
  | c :: rest =>
    if c = '_' then
      match rest with
      | [] => none
      | d :: rest2 =>
        match digitVal d with
        | some dv => digitsCore (acc * 10 + dv) rest2
        | none => none
    else
      match digitVal c with
      | some dv => digitsCore (acc * 10 + dv) rest
      | none => none

/-- Nonempty unsigned decimal numeral per the CPython grammar. -/
def parseUnsigned : List Char → Option Nat
  | [] => none
  | c :: rest =>
    match digitVal c with
    | some d => digitsCore d rest
    | none => none

/-- Signed decimal numeral: one optional sign, then digits. -/
def pyIntCore : List Char → Option Int
  | '+' :: rest => (parseUnsigned rest).map Int.ofNat
  | '-' :: rest => (parseUnsigned rest).map (fun n => -(n : Int))
  | l => (parseUnsigned l).map Int.ofNat

/-- Python int(s) for a base-10 string: surrounding whitespace is
allowed, then an optionally signed numeral (ASCII digits; the Unicode
digits Python would also accept are outside this program's alphabet).
None models the ValueError raise. -/
def pyInt (l : List Char) : Option Int :=
  pyIntCore (pyStrip l)

/-- Python str.splitlines() on the ASCII line terminators that can occur
here: a CRLF pair, a lone LF or a lone CR each end a line, and a
terminator on the last line does not open an empty extra line. -/
def splitlinesGo (cur : List Char) : List Char → List (List Char)
  | [] => [cur.reverse]
  | '\x0d' :: '\n' :: rest => cur.reverse :: splitlinesGo [] rest
  | '\n' :: rest => cur.reverse :: splitlinesGo [] rest
  | '\x0d' :: rest => cur.reverse :: splitlinesGo [] rest
  | c :: rest => splitlinesGo (c :: cur) rest

/-- Python str.splitlines(): the empty string yields no lines. -/
def pySplitlines : List Char → List (List Char)
  | [] => []
  | l => splitlinesGo [] l

/-- One UVM command, as built by Assembler.parse_csv: numeric opcode,
debug name, and the fields dict (an association list here). -/
structure Command where
  opcode : Nat
  name : String
  fields : List (String × Nat)
deriving DecidableEq, Repr

/-- The distinct error raise sites of Assembler.parse_csv, one
constructor per distinct diagnostic the code can append. -/
inductive ParseErr where
  /-- Unknown mnemonic in field 0 (the mnemonic is stored lowered). -/
  | unknownMnemonic (m : List Char)
  /-- Operand field absent or empty for an opcode that needs one. -/
  | missingOperand
  /-- Operand field present but int() raised. -/
  | invalidOperand
  /-- Operand parsed but outside 0..max for its opcode. -/
  | outOfRange (v : Int) (max : Nat)
  /-- The defensive final else of the dispatch (dead code). -/
  | unsupportedOpcode (op : Nat)
deriving DecidableEq, Repr

/-- Outcome of processing one line of the loop body of parse_csv. -/
inductive LineResult where
  | skip
  | err (e : ParseErr)
  | cmd (c : Command)
deriving DecidableEq, Repr

/-- The MNEMONICS lookup table of the Assembler class; the numeric
values are the CommandType enum values. -/
def MNEMONICS : List (List Char × Nat) :=
  [("load".toList, 231), ("read".toList, 61), ("write".toList, 125), ("rotr".toList, 145)]

/-- The per-opcode operand handling of parse_csv (the dispatch inside
the try block): row is the field list after the mnemonic.  The code
reads int(row[1].strip()); row cells were already stripped once and
pyInt strips again internally, so pyInt on the cell is exact. -/
def parseFields (opcode : Nat) (rest : List (List Char)) : LineResult :=
  if opcode = 231 then
    match rest with
    | [] => .err .missingOperand
    | f1 :: _ =>
      if f1 = [] then .err .missingOperand
      else
        match pyInt f1 with
        | none => .err .invalidOperand
        | some v =>
          if v < 0 ∨ v > 0x1FFFFF then .err (.outOfRange v 0x1FFFFF)
          else .cmd ⟨231, "load_const", [("const", v.toNat)]⟩
  else if opcode = 61 then
    match rest with
    | [] => .err .missingOperand
    | f1 :: _ =>
      if f1 = [] then .err .missingOperand
      else
        match pyInt f1 with
        | none => .err .invalidOperand
        | some v =>
          if v < 0 ∨ v > 0x1FFF then .err (.outOfRange v 0x1FFF)
          else .cmd ⟨61, "read_mem", [("offset", v.toNat)]⟩
  else if opcode = 125 then
    match rest with
    | [] => .err .missingOperand
    | f1 :: _ =>
      if f1 = [] then .err .missingOperand
      else
        match pyInt f1 with
        | none => .err .invalidOperand
        | some v =>
          if v < 0 ∨ v > 0x1FFF then .err (.outOfRange v 0x1FFF)
          else .cmd ⟨125, "write_mem", [("address", v.toNat)]⟩
  else if opcode = 145 then
    .cmd ⟨145, "bin_op_rotr", []⟩
  else
    .err (.unsupportedOpcode opcode)

/-- The body of the per-line loop of parse_csv: strip, skip empty lines
and comment lines, split on commas and strip each cell, skip a line
whose first cell is empty, lower-case the mnemonic, look it up, then
dispatch on the opcode. -/
def parseLine (line : List Char) : LineResult :=
  if pyStrip line = [] then .skip
  else if startsWithHash (pyStrip line) then .skip
  else
    match (splitComma (pyStrip line)).map pyStrip with
    | [] => .skip
    | f0 :: rest =>
      if f0 = [] then .skip
      else
        match MNEMONICS.lookup (lowerStr f0) with
        | none => .err (.unknownMnemonic (lowerStr f0))
        | some opcode => parseFields opcode rest

/-- The enumerate(lines, 1) loop of parse_csv: commands and
(line number, error) pairs are both collected in line order and one
line's error never stops the scan of the rest. -/
def parseLines (n : Nat) : List (List Char) → List Command × List (Nat × ParseErr)
  | [] => ([], [])
  | line :: rest =>
    let r := parseLines (n + 1) rest
    match parseLine line with
    | .skip => r
    | .err e => (r.1, (n, e) :: r.2)
    | .cmd c => (c :: r.1, r.2)

/-- The mutable state of an Assembler object: its commands and errors
lists. -/
structure AsmState where
  commands : List Command
  errors : List (Nat × ParseErr)
deriving DecidableEq, Repr

/-- Assembler.parse_csv run on an object in state st: both lists are
cleared first, then the stripped content is split into lines and each
line is processed; the returned Bool is the method's return value
(no errors collected). -/
def parseCsvFrom (st : AsmState) (content : List Char) : AsmState × Bool :=
  let cleared : AsmState := { st with commands := [], errors := [] }
  let r := parseLines 1 (pySplitlines (pyStrip content))
  (⟨cleared.commands ++ r.1, cleared.errors ++ r.2⟩, (cleared.errors ++ r.2).isEmpty)

/-- parse_csv on a fresh Assembler(). -/
def parseCsv (content : List Char) : List Command × List (Nat × ParseErr) :=
  ((parseCsvFrom ⟨[], []⟩ content).1.commands, (parseCsvFrom ⟨[], []⟩ content).1.errors)

/-- struct.pack of one B field and one I field with the little-endian
no-padding format: one byte then four bytes, least significant first. -/
def packBI (b v : Nat) : List Nat :=
  [b, v % 256, v / 256 % 256, v / 65536 % 256, v / 16777216 % 256]

/-- struct.pack of one B field and one H field, little-endian: one byte
then two bytes, least significant first. -/
def packBH (b v : Nat) : List Nat :=
  [b, v % 256, v / 256 % 256]

/-- Command.to_bytes: dispatch on opcode, defensive mask on the operand,
then struct.pack.  none models the two exception exits (the ValueError
of the final else, and a KeyError on a missing fields entry). -/
def toBytes (c : Command) : Option (List Nat) :=
  if c.opcode = 231 then
    match c.fields.lookup "const" with
    | some const => some (packBI c.opcode (const &&& 0x1FFFFF))
    | none => none
  else if c.opcode = 61 then
    match c.fields.lookup "offset" with
    | some offset => some (packBH c.opcode (offset &&& 0x1FFF))
    | none => none
  else if c.opcode = 125 then
    match c.fields.lookup "address" with
    | some address => some (packBH c.opcode (address &&& 0x1FFF))
    | none => none
  else if c.opcode = 145 then
    some [c.opcode]
  else
    none

/-- Assembler.assemble_to_bytes: concatenate each command encoding in
order; none models an uncaught exception from to_bytes. -/
def assembleToBytes : List Command → Option (List Nat)
  | [] => some []
  | c :: rest => do
    let b ← toBytes c
    let r ← assembleToBytes rest
    some (b ++ r)

/-- The assembly pipeline of main: parse_csv, and on any collected
error fail without producing bytes; on success emit the concatenated
encodings.  none models a crash of the encoding stage. -/
def assemble (content : List Char) :
    Option (Except (List (Nat × ParseErr)) (List Nat)) :=
  let r := parseCsv content
  if r.2 = [] then (assembleToBytes r.1).map Except.ok
  else some (Except.error r.2)

/-- Little-endian byte-list decoding: reconstruct the integer from the
operand bytes, least significant byte first. -/
def decodeLE (bs : List Nat) : Nat :=
  bs.foldr (fun b acc => b + 256 * acc) 0

/-- Stated from the words of the spec for comparison with parse_csv:
every line is visited in order and each erroneous line contributes
exactly its own (line number, error) pair, independently of the other
lines. -/
def specCollectedErrors (n : Nat) (ls : List (List Char)) : List (Nat × ParseErr) :=
  (ls.enumFrom n).filterMap fun p =>
    match parseLine p.2 with
    | .err e => some (p.1, e)
    | _ => none

/-- Stated from the words of the spec for comparison with parse_csv:
the successful instructions are exactly the per-line parses that
produced a command, in line order. -/
def specCollectedCmds (ls : List (List Char)) : List Command :=
  ls.filterMap fun l =>
    match parseLine l with
    | .cmd c => some c
    | _ => none

/-- The shape invariant of every command the parser can build: the
opcode is one of the four known ids, and the single operand field is
present and within the bit-width bound checked at parse time. -/
def GoodCmd (c : Command) : Prop :=
  (c.opcode = 231 ∧ ∃ v, v ≤ 0x1FFFFF ∧ c.fields = [("const", v)]) ∨
  (c.opcode = 61 ∧ ∃ v, v ≤ 0x1FFF ∧ c.fields = [("offset", v)]) ∨
  (c.opcode = 125 ∧ ∃ v, v ≤ 0x1FFF ∧ c.fields = [("address", v)]) ∨
  (c.opcode = 145 ∧ c.fields = [])

/-- A value below the 21-bit bound is untouched by the defensive
21-bit mask of to_bytes. -/
theorem and_mask21_of_le {v : Nat} (h : v ≤ 0x1FFFFF) : v &&& 0x1FFFFF = v := by
  have h2 : v < 2 ^ 21 := by omega
  calc v &&& 0x1FFFFF = v &&& (2 ^ 21 - 1) := by norm_num
    _ = v := Nat.and_pow_two_sub_one_of_lt_two_pow h2

/-- A value below the 13-bit bound is untouched by the defensive
13-bit mask of to_bytes. -/
theorem and_mask13_of_le {v : Nat} (h : v ≤ 0x1FFF) : v &&& 0x1FFF = v := by
  have h2 : v < 2 ^ 13 := by omega
  calc v &&& 0x1FFF = v &&& (2 ^ 13 - 1) := by norm_num
    _ = v := Nat.and_pow_two_sub_one_of_lt_two_pow h2

/-- The error half of parse_csv agrees with the spec-side description:
each line is processed independently and each erroneous line
contributes its own pair, tagged with its line number. -/
theorem parseLines_errors (n : Nat) (ls : List (List Char)) :
    (parseLines n ls).2 = specCollectedErrors n ls := by
  induction ls generalizing n with
  | nil => rfl
  | cons l rest ih =>
    cases hp : parseLine l <;>
      simp [parseLines, specCollectedErrors, List.enumFrom, List.filterMap_cons, hp] <;>
      exact ih (n + 1)

/-- The command half of parse_csv agrees with the spec-side
description. -/
theorem parseLines_cmds (n : Nat) (ls : List (List Char)) :
    (parseLines n ls).1 = specCollectedCmds ls := by
  induction ls generalizing n with
  | nil => rfl
  | cons l rest ih =>
    cases hp : parseLine l <;>
      simp [parseLines, specCollectedCmds, List.filterMap_cons, hp] <;>
      exact ih (n + 1)

/-- A line that strips to nothing or to a comment is skipped. -/
theorem parseLine_skip_of_blank {l : List Char}
    (h : pyStrip l = [] ∨ startsWithHash (pyStrip l) = true) :
    parseLine l = .skip := by
  unfold parseLine
  rcases h with h | h
  · rw [if_pos h]
  · by_cases h0 : pyStrip l = []
    · rw [if_pos h0]
    · rw [if_neg h0, if_pos h]

/-- A run over lines that are all skipped collects nothing. -/
theorem parseLines_all_skip (n : Nat) (ls : List (List Char))
    (h : ∀ l ∈ ls, parseLine l = .skip) : parseLines n ls = ([], []) := by
  induction ls generalizing n with
  | nil => rfl
  | cons l rest ih =>
    have hl := h l (List.mem_cons_self l rest)
    have hr := ih (fun x hx => h x (List.mem_cons_of_mem l hx)) (n := n + 1)
    simp [parseLines, hl, hr]

/-- Every command built by the operand dispatch satisfies the parser
invariant. -/
theorem parseFields_cmd_inv {op : Nat} {rest : List (List Char)} {c : Command}
    (h : parseFields op rest = .cmd c) : GoodCmd c := by
  by_cases h231 : op = 231
  · subst h231
    match rest with
    | [] => simp [parseFields] at h
    | f1 :: rest2 =>
      by_cases hf : f1 = []
      · simp [parseFields, hf] at h
      · rcases hv : pyInt f1 with _ | v
        · simp [parseFields, hf, hv] at h
        · by_cases hr : v < 0 ∨ v > 0x1FFFFF
          · simp [parseFields, hf, hv, hr] at h
          · have he : parseFields 231 (f1 :: rest2) =
                .cmd ⟨231, "load_const", [("const", v.toNat)]⟩ := by
              simp [parseFields, hf, hv, hr]
            rw [he] at h
            obtain rfl := LineResult.cmd.inj h
            exact Or.inl ⟨rfl, v.toNat, by omega, rfl⟩
  · by_cases h61 : op = 61
    · subst h61
      match rest with
      | [] => simp [parseFields] at h
      | f1 :: rest2 =>
        by_cases hf : f1 = []
        · simp [parseFields, hf] at h
        · rcases hv : pyInt f1 with _ | v
          · simp [parseFields, hf, hv] at h
          · by_cases hr : v < 0 ∨ v > 0x1FFF
            · simp [parseFields, hf, hv, hr] at h
            · have he : parseFields 61 (f1 :: rest2) =
                  .cmd ⟨61, "read_mem", [("offset", v.toNat)]⟩ := by
                simp [parseFields, hf, hv, hr]
              rw [he] at h
              obtain rfl := LineResult.cmd.inj h
              exact Or.inr (Or.inl ⟨rfl, v.toNat, by omega, rfl⟩)
    · by_cases h125 : op = 125
      · subst h125
        match rest with
        | [] => simp [parseFields] at h
        | f1 :: rest2 =>
          by_cases hf : f1 = []
          · simp [parseFields, hf] at h
          · rcases hv : pyInt f1 with _ | v
            · simp [parseFields, hf, hv] at h
            · by_cases hr : v < 0 ∨ v > 0x1FFF
              · simp [parseFields, hf, hv, hr] at h
              · have he : parseFields 125 (f1 :: rest2) =
                    .cmd ⟨125, "write_mem", [("address", v.toNat)]⟩ := by
                  simp [parseFields, hf, hv, hr]
                rw [he] at h
                obtain rfl := LineResult.cmd.inj h
                exact Or.inr (Or.inr (Or.inl ⟨rfl, v.toNat, by omega, rfl⟩))
      · by_cases h145 : op = 145
        · subst h145
          have he : parseFields 145 rest = .cmd ⟨145, "bin_op_rotr", []⟩ := by
            simp [parseFields]
          rw [he] at h
          obtain rfl := LineResult.cmd.inj h
          exact Or.inr (Or.inr (Or.inr ⟨rfl, rfl⟩))
        · simp [parseFields, h231, h61, h125, h145] at h

/-- Unfolding parseLine on a non-blank, non-comment line whose first
stripped field is nonempty and is a known mnemonic: the line is handled
by the operand dispatch. -/
theorem parseLine_known {l f0 : List Char} {rest : List (List Char)} {op : Nat}
    (hne : pyStrip l ≠ []) (hnc : startsWithHash (pyStrip l) = false)
    (hrow : (splitComma (pyStrip l)).map pyStrip = f0 :: rest) (hf0 : f0 ≠ [])
    (hop : MNEMONICS.lookup (lowerStr f0) = some op) :
    parseLine l = parseFields op rest := by
  unfold parseLine
  rw [if_neg hne, if_neg (by simp [hnc]), hrow]
  simp [hf0, hop]

/-- Unfolding parseLine on such a line whose lowered first field is not
in the mnemonic table: the unknown-mnemonic error is recorded. -/
theorem parseLine_unknown {l f0 : List Char} {rest : List (List Char)}
    (hne : pyStrip l ≠ []) (hnc : startsWithHash (pyStrip l) = false)
    (hrow : (splitComma (pyStrip l)).map pyStrip = f0 :: rest) (hf0 : f0 ≠ [])
    (hop : MNEMONICS.lookup (lowerStr f0) = none) :
    parseLine l = .err (.unknownMnemonic (lowerStr f0)) := by
  unfold parseLine
  rw [if_neg hne, if_neg (by simp [hnc]), hrow]
  simp [hf0, hop]

/-- Every command a line can parse to satisfies the parser invariant. -/
theorem parseLine_cmd_good {l : List Char} {c : Command}
    (h : parseLine l = .cmd c) : GoodCmd c := by
  unfold parseLine at h
  split_ifs at h with h0 h1
  rcases hrow : (splitComma (pyStrip l)).map pyStrip with _ | ⟨f0, rest⟩ <;>
    rw [hrow] at h
  · simp at h
  · by_cases hf0 : f0 = []
    · simp [hf0] at h
    · rcases hop : MNEMONICS.lookup (lowerStr f0) with _ | op
      · simp [hf0, hop] at h
      · simp only [hf0, hop, ite_false, reduceIte, if_neg] at h
        exact parseFields_cmd_inv h

/-- A command collected by the line loop comes from some line of the
input. -/
theorem parseLines_cmd_mem {n : Nat} {ls : List (List Char)} {c : Command}
    (h : c ∈ (parseLines n ls).1) : ∃ l ∈ ls, parseLine l = .cmd c := by
  induction ls generalizing n with
  | nil => simp [parseLines] at h
  | cons l rest ih =>
    cases hp : parseLine l with
    | skip =>
      simp only [parseLines, hp] at h
      obtain ⟨x, hx, hc⟩ := ih h
      exact ⟨x, List.mem_cons_of_mem _ hx, hc⟩
    | err e =>
      simp only [parseLines, hp] at h
      obtain ⟨x, hx, hc⟩ := ih h
      exact ⟨x, List.mem_cons_of_mem _ hx, hc⟩
    | cmd c2 =>
      simp only [parseLines, hp, List.mem_cons] at h
      rcases h with rfl | h
      · exact ⟨l, List.mem_cons_self _ _, hp⟩
      · obtain ⟨x, hx, hc⟩ := ih h
        exact ⟨x, List.mem_cons_of_mem _ hx, hc⟩

/-- On a command with the parser invariant, to_bytes succeeds, the
opcode is one of the four ids, and the defensive mask leaves the
operand unchanged, so the packed bytes carry the unmasked operand. -/
theorem goodCmd_encode {c : Command} (hg : GoodCmd c) :
    (∃ bs, toBytes c = some bs) ∧
    (c.opcode = 231 ∨ c.opcode = 61 ∨ c.opcode = 125 ∨ c.opcode = 145) ∧
    (c.opcode = 231 → ∃ v, c.fields.lookup "const" = some v ∧ v &&& 0x1FFFFF = v ∧
      toBytes c = some (packBI 231 v)) ∧
    (c.opcode = 61 → ∃ v, c.fields.lookup "offset" = some v ∧ v &&& 0x1FFF = v ∧
      toBytes c = some (packBH 61 v)) ∧
    (c.opcode = 125 → ∃ v, c.fields.lookup "address" = some v ∧ v &&& 0x1FFF = v ∧
      toBytes c = some (packBH 125 v)) := by
  rcases hg with ⟨h1, v, hv, hf⟩ | ⟨h1, v, hv, hf⟩ | ⟨h1, v, hv, hf⟩ | ⟨h1, hf⟩
  · have henc : toBytes c = some (packBI 231 v) := by
      simp [toBytes, h1, hf, List.lookup, and_mask21_of_le hv]
    refine ⟨⟨_, henc⟩, Or.inl h1,
      fun _ => ⟨v, by simp [hf, List.lookup], and_mask21_of_le hv, henc⟩,
      fun h2 => ?_, fun h2 => ?_⟩ <;> omega
  · have henc : toBytes c = some (packBH 61 v) := by
      simp [toBytes, h1, hf, List.lookup, and_mask13_of_le hv]
    refine ⟨⟨_, henc⟩, Or.inr (Or.inl h1), fun h2 => ?_,
      fun _ => ⟨v, by simp [hf, List.lookup], and_mask13_of_le hv, henc⟩,
      fun h2 => ?_⟩ <;> omega
  · have henc : toBytes c = some (packBH 125 v) := by
      simp [toBytes, h1, hf, List.lookup, and_mask13_of_le hv]
    refine ⟨⟨_, henc⟩, Or.inr (Or.inr (Or.inl h1)), fun h2 => ?_, fun h2 => ?_,
      fun _ => ⟨v, by simp [hf, List.lookup], and_mask13_of_le hv, henc⟩⟩ <;> omega
  · have henc : toBytes c = some [145] := by
      simp [toBytes, h1]
    refine ⟨⟨_, henc⟩, Or.inr (Or.inr (Or.inr h1)), fun h2 => ?_, fun h2 => ?_,
      fun h2 => ?_⟩ <;> omega

/-- Claim C1: the spec says parsing the single line load,147 and
encoding the instruction yields the four bytes E7 93 00 00.  The parse
does yield LOAD_CONST(147), but to_bytes packs the constant with the
struct format <BI, a full four-byte field after the opcode byte, so the
emitted encoding is the five bytes E7 93 00 00 00, not the four bytes
the claim states (the code also contradicts its own comment, which
announces a three-byte constant field). -/
theorem claimC1_load147_bytes :
    parseCsv ("load,147".toList) =
      ([⟨231, "load_const", [("const", 147)]⟩], []) ∧
    assemble ("load,147".toList) = some (Except.ok [0xE7, 0x93, 0x00, 0x00, 0x00]) ∧
    ([0xE7, 0x93, 0x00, 0x00, 0x00] : List Nat) ≠ [0xE7, 0x93, 0x00, 0x00] :=
  ⟨rfl, rfl, by decide⟩

/-- Claim C2: the spec table promises encoded lengths 4, 3, 3, 1 with
the opcode id as first byte.  READ_MEM, WRITE_MEM and ROTATE_RIGHT
match, and the first byte is always the opcode id, but a validated
LOAD_CONST encodes to five bytes, not four, because <BI packs a
four-byte constant field. -/
theorem claimC2_lengths :
    toBytes ⟨231, "load_const", [("const", 147)]⟩ = some [231, 147, 0, 0, 0] ∧
    (packBI 231 147).length = 5 ∧
    toBytes ⟨61, "read_mem", [("offset", 95)]⟩ = some [61, 95, 0] ∧
    toBytes ⟨125, "write_mem", [("address", 242)]⟩ = some [125, 242, 0] ∧
    toBytes ⟨145, "bin_op_rotr", []⟩ = some [145] :=
  ⟨rfl, rfl, rfl, rfl, rfl⟩

/-- Claim C3: for every opcode with an operand and every in-range
operand value, decoding the operand bytes of the encoding in
little-endian order reconstructs exactly the operand. -/
theorem claimC3_roundtrip (v : Nat) :
    (v ≤ 0x1FFFFF → ∃ bs, toBytes ⟨231, "load_const", [("const", v)]⟩ =
      some (231 :: bs) ∧ decodeLE bs = v) ∧
    (v ≤ 0x1FFF → ∃ bs, toBytes ⟨61, "read_mem", [("offset", v)]⟩ =
      some (61 :: bs) ∧ decodeLE bs = v) ∧
    (v ≤ 0x1FFF → ∃ bs, toBytes ⟨125, "write_mem", [("address", v)]⟩ =
      some (125 :: bs) ∧ decodeLE bs = v) := by
  refine ⟨fun h => ?_, fun h => ?_, fun h => ?_⟩
  · refine ⟨[v % 256, v / 256 % 256, v / 65536 % 256, v / 16777216 % 256], ?_, ?_⟩
    · simp [toBytes, List.lookup, packBI, and_mask21_of_le h]
    · simp [decodeLE]; omega
  · refine ⟨[v % 256, v / 256 % 256], ?_, ?_⟩
    · simp [toBytes, List.lookup, packBH, and_mask13_of_le h]
    · simp [decodeLE]; omega
  · refine ⟨[v % 256, v / 256 % 256], ?_, ?_⟩
    · simp [toBytes, List.lookup, packBH, and_mask13_of_le h]
    · simp [decodeLE]; omega

/-- Witness for claim C3 at the concrete operand 147. -/
theorem claimC3_roundtrip_w :
    ∃ bs, toBytes ⟨231, "load_const", [("const", 147)]⟩ =
      some (231 :: bs) ∧ decodeLE bs = 147 :=
  (claimC3_roundtrip 147).1 (by decide)

/-- Claim C4: for each opcode with an operand, the maximum valid value
parses to an instruction, and one more than the maximum is rejected
with the out-of-range error carrying the value and the bound. -/
theorem claimC4_boundary :
    parseLine ("load,2097151".toList) =
      .cmd ⟨231, "load_const", [("const", 0x1FFFFF)]⟩ ∧
    parseLine ("load,2097152".toList) = .err (.outOfRange 2097152 0x1FFFFF) ∧
    parseLine ("read,8191".toList) = .cmd ⟨61, "read_mem", [("offset", 0x1FFF)]⟩ ∧
    parseLine ("read,8192".toList) = .err (.outOfRange 8192 0x1FFF) ∧
    parseLine ("write,8191".toList) = .cmd ⟨125, "write_mem", [("address", 0x1FFF)]⟩ ∧
    parseLine ("write,8192".toList) = .err (.outOfRange 8192 0x1FFF) :=
  ⟨rfl, rfl, rfl, rfl, rfl, rfl⟩

/-- Claim C5: parse_csv visits every line in order and each erroneous
line contributes exactly its own (line number, error) pair, so one
error never stops the scan; and whenever at least one error was
collected, assembly fails with the full error list and produces no
bytes. -/
theorem claimC5_collects_all_errors (content : List Char) :
    (parseCsv content).2 = specCollectedErrors 1 (pySplitlines (pyStrip content)) ∧
    ((parseCsv content).2 ≠ [] →
      assemble content = some (Except.error (parseCsv content).2)) := by
  constructor
  · simpa [parseCsv, parseCsvFrom] using parseLines_errors 1 (pySplitlines (pyStrip content))
  · intro hne
    simp [assemble, hne]

/-- Witness for claim C5 on a two-line input whose second line is
erroneous. -/
theorem claimC5_collects_all_errors_w :
    (parseCsv ("rotr\nfrobnicate".toList)).2 ≠ [] ∧
    assemble ("rotr\nfrobnicate".toList) =
      some (Except.error (parseCsv ("rotr\nfrobnicate".toList)).2) :=
  ⟨by decide, (claimC5_collects_all_errors ("rotr\nfrobnicate".toList)).2 (by decide)⟩

/-- Claim C6: every instruction the parser builds encodes successfully
(the unknown-opcode branch of to_bytes is unreachable), and the
defensive masks are the identity on operands that passed the parse-time
range check, so the packed bytes carry the unmasked operand. -/
theorem claimC6_encode_total (content : List Char) (c : Command)
    (h : c ∈ (parseCsv content).1) :
    (∃ bs, toBytes c = some bs) ∧
    (c.opcode = 231 ∨ c.opcode = 61 ∨ c.opcode = 125 ∨ c.opcode = 145) ∧
    (c.opcode = 231 → ∃ v, c.fields.lookup "const" = some v ∧ v &&& 0x1FFFFF = v ∧
      toBytes c = some (packBI 231 v)) ∧
    (c.opcode = 61 → ∃ v, c.fields.lookup "offset" = some v ∧ v &&& 0x1FFF = v ∧
      toBytes c = some (packBH 61 v)) ∧
    (c.opcode = 125 → ∃ v, c.fields.lookup "address" = some v ∧ v &&& 0x1FFF = v ∧
      toBytes c = some (packBH 125 v)) := by
  have hmem : c ∈ (parseLines 1 (pySplitlines (pyStrip content))).1 := by
    simpa [parseCsv, parseCsvFrom] using h
  obtain ⟨l, _, hl⟩ := parseLines_cmd_mem hmem
  exact goodCmd_encode (parseLine_cmd_good hl)

/-- Witness for claim C6 on the command parsed from load,147. -/
theorem claimC6_encode_total_w :
    (⟨231, "load_const", [("const", 147)]⟩ : Command) ∈
      (parseCsv ("load,147".toList)).1 ∧
    ∃ bs, toBytes ⟨231, "load_const", [("const", 147)]⟩ = some bs :=
  ⟨by decide,
    (claimC6_encode_total ("load,147".toList) ⟨231, "load_const", [("const", 147)]⟩
      (by decide)).1⟩

/-- Claim C7: assembling the empty program text, or a text all of whose
lines strip to nothing or to comments, succeeds with zero errors and a
zero-length byte sequence. -/
theorem claimC7_empty_program (content : List Char)
    (h : ∀ l ∈ pySplitlines (pyStrip content),
      pyStrip l = [] ∨ startsWithHash (pyStrip l) = true) :
    assemble content = some (Except.ok []) ∧ parseCsv content = ([], []) := by
  have hs : parseLines 1 (pySplitlines (pyStrip content)) = ([], []) :=
    parseLines_all_skip _ _ (fun l hl => parseLine_skip_of_blank (h l hl))
  have hp : parseCsv content = ([], []) := by
    simp [parseCsv, parseCsvFrom, hs]
  exact ⟨by simp [assemble, hp, assembleToBytes], hp⟩

/-- Witness for claim C7 on a text of one comment line and one blank
line. -/
theorem claimC7_empty_program_w :
    assemble ("# intro\n   \n".toList) = some (Except.ok []) ∧
    parseCsv ("# intro\n   \n".toList) = ([], []) :=
  claimC7_empty_program ("# intro\n   \n".toList) (by decide)

/-- Counterexample to claim C8 as stated: the operand field -1 does not
parse as a base-10 non-negative integer, yet the parser reports the
out-of-range error, not InvalidOperand, because int() accepts the
negative numeral and the sign check is part of the range test. -/
theorem claimC8_cex :
    parseLine ("load,-1".toList) = .err (.outOfRange (-1) 0x1FFFFF) ∧
    parseLine ("load,-1".toList) ≠ .err .invalidOperand :=
  ⟨rfl, by decide⟩

/-- Claim C8 as amended: for a line with an operand-taking mnemonic, a
missing or empty operand field gives MissingOperand, an operand field
int() cannot parse gives InvalidOperand, and an operand that parses to
a negative integer gives OperandOutOfRange; in every such case no
instruction is produced. -/
theorem claimC8_amended (l f0 : List Char) (rest : List (List Char)) (op : Nat)
    (hne : pyStrip l ≠ []) (hnc : startsWithHash (pyStrip l) = false)
    (hrow : (splitComma (pyStrip l)).map pyStrip = f0 :: rest) (hf0 : f0 ≠ [])
    (hop : MNEMONICS.lookup (lowerStr f0) = some op)
    (h3 : op = 231 ∨ op = 61 ∨ op = 125) :
    (rest = [] → parseLine l = .err .missingOperand) ∧
    (∀ f1 rest2, rest = f1 :: rest2 → f1 = [] →
      parseLine l = .err .missingOperand) ∧
    (∀ f1 rest2, rest = f1 :: rest2 → f1 ≠ [] → pyInt f1 = none →
      parseLine l = .err .invalidOperand) ∧
    (∀ f1 rest2 (v : Int), rest = f1 :: rest2 → f1 ≠ [] → pyInt f1 = some v → v < 0 →
      parseLine l = .err (.outOfRange v (if op = 231 then 0x1FFFFF else 0x1FFF))) ∧
    (∀ e, parseLine l = .err e → ∀ c, parseLine l ≠ .cmd c) := by
  have hd : parseLine l = parseFields op rest := parseLine_known hne hnc hrow hf0 hop
  refine ⟨?_, ?_, ?_, ?_, ?_⟩
  · rintro rfl
    rcases h3 with rfl | rfl | rfl <;> simp [hd, parseFields]
  · rintro f1 rest2 rfl rfl
    rcases h3 with rfl | rfl | rfl <;> simp [hd, parseFields]
  · rintro f1 rest2 rfl hf1 hint
    rcases h3 with rfl | rfl | rfl <;> simp [hd, parseFields, hf1, hint]
  · rintro f1 rest2 v rfl hf1 hint hv
    rcases h3 with rfl | rfl | rfl
    · rw [hd]; simp [parseFields, hf1, hint, show v < 0 ∨ v > 0x1FFFFF from Or.inl hv]
    · rw [hd]; simp [parseFields, hf1, hint, show v < 0 ∨ v > 0x1FFF from Or.inl hv]
    · rw [hd]; simp [parseFields, hf1, hint, show v < 0 ∨ v > 0x1FFF from Or.inl hv]
  · intro e he c
    rw [he]
    simp

/-- Witness for amended claim C8: an unparsable operand and a missing
operand on concrete LOAD_CONST lines. -/
theorem claimC8_amended_w :
    parseLine ("load,xy".toList) = .err ParseErr.invalidOperand ∧
    parseLine ("load".toList) = .err ParseErr.missingOperand := by
  constructor
  · exact (claimC8_amended ("load,xy".toList) ("load".toList) ["xy".toList] 231
      (by decide) (by decide) (by decide) (by decide) (by decide) (Or.inl rfl)).2.2.1
      ("xy".toList) [] rfl (by decide) (by decide)
  · exact (claimC8_amended ("load".toList) ("load".toList) [] 231
      (by decide) (by decide) (by decide) (by decide) (by decide) (Or.inl rfl)).1 rfl

/-- Counterexample to claim C9 as stated: the line ,5 has the empty
string as its first field, which matches no recognized tag, yet parsing
yields no UnknownMnemonic error: the line is silently skipped by the
empty-first-cell guard. -/
theorem claimC9_cex :
    (splitComma (pyStrip (",5".toList))).map pyStrip = [[], "5".toList] ∧
    MNEMONICS.lookup (lowerStr []) = none ∧
    parseLine (",5".toList) = LineResult.skip := by
  decide

/-- Claim C9 as amended: mnemonic recognition is case-insensitive (two
lines that differ only in the case of a nonempty first field parse
identically), and a nonempty first field not matching a recognized tag
yields UnknownMnemonic; a line whose first field is empty after
trimming is skipped like a blank line. -/
theorem claimC9_amended (l1 l2 f0 g0 : List Char) (rest : List (List Char))
    (h1ne : pyStrip l1 ≠ []) (h1nc : startsWithHash (pyStrip l1) = false)
    (h1row : (splitComma (pyStrip l1)).map pyStrip = f0 :: rest) (hf0 : f0 ≠ [])
    (h2ne : pyStrip l2 ≠ []) (h2nc : startsWithHash (pyStrip l2) = false)
    (h2row : (splitComma (pyStrip l2)).map pyStrip = g0 :: rest) (hg0 : g0 ≠ [])
    (hcase : lowerStr f0 = lowerStr g0) :
    parseLine l1 = parseLine l2 ∧
    (MNEMONICS.lookup (lowerStr f0) = none →
      parseLine l1 = .err (.unknownMnemonic (lowerStr f0))) := by
  constructor
  · rcases hop : MNEMONICS.lookup (lowerStr f0) with _ | op
    · rw [parseLine_unknown h1ne h1nc h1row hf0 hop,
        parseLine_unknown h2ne h2nc h2row hg0 (hcase ▸ hop), hcase]
    · rw [parseLine_known h1ne h1nc h1row hf0 hop,
        parseLine_known h2ne h2nc h2row hg0 (hcase ▸ hop)]
  · intro hop
    exact parseLine_unknown h1ne h1nc h1row hf0 hop

/-- Witness for amended claim C9: LOAD,147 parses exactly as load,147
does. -/
theorem claimC9_amended_w :
    parseLine ("LOAD,147".toList) = parseLine ("load,147".toList) ∧
    (MNEMONICS.lookup (lowerStr ("LOAD".toList)) = none →
      parseLine ("LOAD,147".toList) = .err (.unknownMnemonic (lowerStr ("LOAD".toList)))) :=
  claimC9_amended ("LOAD,147".toList) ("load,147".toList) ("LOAD".toList)
    ("load".toList) ["147".toList] (by decide) (by decide) (by decide) (by decide)
    (by decide) (by decide) (by decide) (by decide) (by decide)

/-- Claim C10: parse_csv clears the commands and errors lists before
processing, so the result of parse_csv and of the subsequent encoding
is the same for equal input text whatever state the Assembler object
was in. -/
theorem claimC10_no_residue (st1 st2 : AsmState) (content : List Char) :
    parseCsvFrom st1 content = parseCsvFrom st2 content ∧
    (parseCsvFrom st1 content).1.commands = (parseCsv content).1 ∧
    (parseCsvFrom st1 content).1.errors = (parseCsv content).2 ∧
    assembleToBytes (parseCsvFrom st1 content).1.commands
      = assembleToBytes (parseCsv content).1 :=
  ⟨rfl, rfl, rfl, rfl⟩

end UVMAsm
